import Mathlib

/-!
Verification of the VeGAS pipeline core: the reference-selection /
consensus stage (`src/scripts/assembly.py`) and the iterative
host-depletion stage (`src/scripts/host_removal.py`).  The Python scripts
are shallowly embedded: every pure computation (string parsing, the
best-reference fold, the per-round bookkeeping) is a Lean function
translated from the source, and each external-tool invocation is an
oracle value (exit code, captured stderr, which output files it produced)
supplied by an environment record.
-/

namespace VeGAS

/-! ### String primitives (models of the Python string operations) -/

/-- Model of the Python whitespace class used by `str.split()` /
`str.strip()`. -/
def isSpaceChar (c : Char) : Bool :=
  c == ' ' || c == '\t' || c == '\n' || c == '\r' || c == '\x0b' || c == '\x0c'

/-- Does `pat` occur as a contiguous substring of `s`?  Model of Python
`pat in s`. -/
def containsL (s pat : List Char) : Bool :=
  match s with
  | [] => pat.isEmpty
  | c :: rest => pat.isPrefixOf (c :: rest) || containsL rest pat

/-- Python `pat in s` on strings. -/
def strContains (s pat : String) : Bool :=
  containsL s.data pat.data

/-- Python `s.endswith(pat)`. -/
def strEndsWith (s pat : String) : Bool :=
  pat.data.isSuffixOf s.data

/-- Left-to-right non-overlapping replacement, one fuel unit per
consumed character; `fuel = s.length` always suffices. -/
def replaceFuel : Nat → List Char → List Char → List Char → List Char
  | 0, s, _, _ => s
  | Nat.succ fuel, s, pat, rep =>
    match s with
    | [] => []
    | c :: rest =>
      if !pat.isEmpty && pat.isPrefixOf (c :: rest) then
        rep ++ replaceFuel fuel ((c :: rest).drop pat.length) pat rep
      else
        c :: replaceFuel fuel rest pat rep

/-- Python `s.replace(pat, rep)` (all occurrences, left to right,
non-overlapping). -/
def strReplace (s pat rep : String) : String :=
  String.mk (replaceFuel s.data.length s.data pat.data rep.data)

/-- Python `os.path.basename`: the part after the last slash. -/
def baseNameStr (p : String) : String :=
  String.mk ((p.data.reverse.takeWhile (fun c => c != '/')).reverse)

/-- Worker for `wordsL`: accumulates the current word reversed. -/
def wordsGo : List Char → List Char → List (List Char)
  | [], cur => if cur.isEmpty then [] else [cur.reverse]
  | c :: rest, cur =>
    if isSpaceChar c then
      if cur.isEmpty then wordsGo rest [] else cur.reverse :: wordsGo rest []
    else wordsGo rest (c :: cur)

/-- Python `s.split()` (split on whitespace runs, no empty fields). -/
def wordsL (s : List Char) : List (List Char) :=
  wordsGo s []

/-- Python `s.strip()`. -/
def trimL (cs : List Char) : List Char :=
  ((cs.dropWhile isSpaceChar).reverse.dropWhile isSpaceChar).reverse

/-- Value of a nonempty all-digit character list. -/
def digitsValGo : List Char → Nat → Option Nat
  | [], acc => some acc
  | c :: rest, acc =>
    if c.isDigit then digitsValGo rest (acc * 10 + (c.toNat - 48)) else none

/-- Value of a digit string: `some n` iff `cs` is nonempty and all
digits. -/
def digitsVal (cs : List Char) : Option Nat :=
  if cs.isEmpty then none else digitsValGo cs 0

/-- Python `int(tok)` on a whitespace-free token: optional sign followed
by digits, `none` models the `ValueError`. -/
def pyInt? (s : String) : Option Int :=
  match s.data with
  | '-' :: rest => (digitsVal rest).map (fun n => -(n : Int))
  | '+' :: rest => (digitsVal rest).map (fun n => (n : Int))
  | cs => (digitsVal cs).map (fun n => (n : Int))

/-- Decimal core of `float`: digits with an optional fractional part. -/
def pyFloatCore (cs : List Char) : Option ℚ :=
  let ip := cs.takeWhile (fun c => c != '.')
  let rest := cs.dropWhile (fun c => c != '.')
  match rest with
  | [] => (digitsVal ip).map (fun n => (n : ℚ))
  | _ :: fp =>
    match digitsVal ip, digitsVal fp with
    | some i, some f => some ((i : ℚ) + (f : ℚ) / ((10 : ℚ) ^ fp.length))
    | _, _ => none

/-- Python `float(s)` on the plain decimal literals the aligner prints
(optional sign, digits, optional fractional digits); `none` models the
`ValueError`. -/
def pyFloat? (s : String) : Option ℚ :=
  match s.data with
  | '-' :: rest => (pyFloatCore rest).map (fun q => -q)
  | '+' :: rest => pyFloatCore rest
  | cs => pyFloatCore cs

/-- Lexicographic order on character lists (Python string `<=` by code
points). -/
def lexLe : List Char → List Char → Bool
  | [], _ => true
  | _ :: _, [] => false
  | a :: as, b :: bs => if a == b then lexLe as bs else decide (a < b)

/-- Insert into a lexicographically sorted list. -/
def insertSorted (x : String) : List String → List String
  | [] => [x]
  | y :: ys => if lexLe x.data y.data then x :: y :: ys else y :: insertSorted x ys

/-- Python `sorted` on strings (insertion sort, ascending). -/
def sortStr (l : List String) : List String :=
  l.foldr insertSorted []

/-! ### Host depletion loop (`src/scripts/host_removal.py`, `main`)

The aligner invocation of each round is an oracle: a `RoundEnv` records
the host index path handed to the loop, the exit code and captured
stderr of the `bowtie2` call, and the contents of the two retained-read
(`--un-conc`) output files when the tool produced them. -/

/-- Command-line inputs of `host_removal.main` that the loop consumes,
with the two input FASTQ files by basename and content. -/
structure DepArgs where
  r1name : String
  r1content : String
  r2content : String
  out1 : String
  out2 : String
deriving DecidableEq

/-- Oracle for one round: what the `bowtie2` subprocess did for host
index path `host`.  `unmapped1` / `unmapped2` are `some content` exactly
when `{base}_unmapped.1.fastq` / `.2.fastq` exist afterwards. -/
structure RoundEnv where
  host : String
  exitCode : Int
  stderrLines : List String
  unmapped1 : Option String
  unmapped2 : Option String
deriving DecidableEq

/-- Line 38: `base = os.path.basename(f).replace(".1.bt2", "")`. -/
def hostBase (e : RoundEnv) : String :=
  strReplace (baseNameStr e.host) ".1.bt2" ""

/-- Marker of the exactly-once-aligned stderr line. -/
def mExact : String := "aligned exactly 1 time"

/-- Marker of the multi-aligned stderr line. -/
def mMulti : String := "aligned >1 times"

/-- Marker of the total-pairs stderr line. -/
def mPaired : String := "paired; of these:"

/-- Marker of the concordantly-unaligned stderr line. -/
def mZero : String := "aligned concordantly 0 times"

/-- The four counters the loop scrapes from the aligner stderr. -/
structure Counts where
  exact : Int
  multi : Int
  unaligned : Int
  total : Int
deriving DecidableEq

/-- Model of `int(line.split()[0])`: first whitespace-separated token
parsed as an integer; `none` models the `IndexError` / `ValueError`
crash. -/
def lineCount? (line : String) : Option Int :=
  ((wordsL line.data).head?.map String.mk).bind pyInt?

/-- One iteration of the stderr scan (lines 60-68): the `elif` chain
recognizes the first matching marker and overwrites that counter. -/
def updCounts (acc : Option Counts) (line : String) : Option Counts :=
  match acc with
  | none => none
  | some c =>
    if strContains line mExact then (lineCount? line).map (fun v => { c with exact := v })
    else if strContains line mMulti then (lineCount? line).map (fun v => { c with multi := v })
    else if strContains line mPaired then (lineCount? line).map (fun v => { c with total := v })
    else if strContains line mZero then (lineCount? line).map (fun v => { c with unaligned := v })
    else some c

/-- Lines 59-68: scan of `res.stderr.splitlines()` starting from all-zero
counters; a later matching line overwrites an earlier one. -/
def parseCounts (lines : List String) : Option Counts :=
  lines.foldl updCounts (some { exact := 0, multi := 0, unaligned := 0, total := 0 })

/-- The pair count the loop removes for round `e`:
`removed = exact + multi` of the parsed stderr (zero if the parse would
crash; only used under a successful parse). -/
def removedOf (e : RoundEnv) : Int :=
  match parseCounts e.stderrLines with
  | some c => c.exact + c.multi
  | none => 0

/-- The summary line the round appends: `f"{base}\t{removed}"`. -/
def entryOf (e : RoundEnv) : String :=
  hostBase e ++ "\t" ++ toString (removedOf e)

/-- Loop state threaded across rounds: contents of the current read-pair
files, the running total, the summary lines appended so far, and the
files accumulated inside the temporary work directory. -/
structure DepState where
  curr1 : String
  curr2 : String
  totalRemoved : Int
  entries : List String
  workFiles : List String
deriving DecidableEq

/-- Lines 37-85: the depletion loop.  Per host: parse the captured
stderr (a crash of `int(...)` is `none`), add `exact + multi` to the
total, append the summary line, then either move both retained-read
files onto the current pair, or — when one is missing — reopen the
current files in append mode (a no-op, they always exist) and `break`. -/
def depleteRounds : DepState → List RoundEnv → Option DepState
  | st, [] => some st
  | st, e :: rest =>
    match parseCounts e.stderrLines with
    | none => none
    | some c =>
      let removed := c.exact + c.multi
      let st1 : DepState :=
        { st with
          totalRemoved := st.totalRemoved + removed
          entries := st.entries ++ [hostBase e ++ "\t" ++ toString removed]
          workFiles := st.workFiles ++ [hostBase e ++ "_stats.txt"] }
      match e.unmapped1, e.unmapped2 with
      | some u1, some u2 => depleteRounds { st1 with curr1 := u1, curr2 := u2 } rest
      | _, _ => some st1

/-- Content of a gzip-compressed file, tagged by its raw payload. -/
inductive FileData
  | gz (raw : String)
deriving DecidableEq

/-- Lines 4-7: `gzip_out` compresses the current file into the
destination. -/
def gzip_out (content : String) : FileData :=
  FileData.gz content

/-- Lines 87-88: the destination path — the caller path itself when it
already ends in `.gz`, otherwise with `.gz` appended. -/
def gzDest (p : String) : String :=
  if strEndsWith p ".gz" then p else p ++ ".gz"

/-- Lines 23-24: the header written when the summary file is created. -/
def summaryHeader : String := "Removal Summary (paired-end)"

/-- Line 20: `sample = os.path.basename(a.r1).replace("_R1.fastq.gz", "")`. -/
def sampleOf (a : DepArgs) : String :=
  strReplace a.r1name "_R1.fastq.gz" ""

/-- Lines 31-35: current files seeded with copies of the inputs inside
the fresh temporary work directory. -/
def initState (a : DepArgs) : DepState :=
  { curr1 := a.r1content
    curr2 := a.r2content
    totalRemoved := 0
    entries := []
    workFiles := [sampleOf a ++ "_1.fastq", sampleOf a ++ "_2.fastq"] }

/-- Observable outcome of a completed `host_removal.main` run. -/
structure DepResult where
  summaryFile : List String
  totalRemoved : Int
  outPath1 : String
  outData1 : FileData
  outPath2 : String
  outData2 : FileData
  finalCurr1 : String
  finalCurr2 : String
deriving DecidableEq

/-- Lines 19-92: the whole stage.  `none` models a crash of the loop
body (an unparsable count line); on completion the summary file holds
the header plus the appended lines and the final current pair is
gzip-compressed to the (possibly `.gz`-suffixed) output paths. -/
def runDepletion (a : DepArgs) (envs : List RoundEnv) : Option DepResult :=
  match depleteRounds (initState a) envs with
  | none => none
  | some st =>
    some
      { summaryFile := summaryHeader :: st.entries
        totalRemoved := st.totalRemoved
        outPath1 := gzDest a.out1
        outData1 := gzip_out st.curr1
        outPath2 := gzDest a.out2
        outData2 := gzip_out st.curr2
        finalCurr1 := st.curr1
        finalCurr2 := st.curr2 }

/-- The stage together with the fate of its scratch directory: the
`with tempfile.TemporaryDirectory(...)` block (line 31) removes the work
directory both when the body completes and when it raises, so the
surviving scratch-file list is empty on both branches. -/
def runDepletionFS (a : DepArgs) (envs : List RoundEnv) :
    Option DepResult × List String :=
  match runDepletion a envs with
  | none => (none, [])
  | some r => (some r, [])

/-- Number of rounds the loop actually executes: it stops after the
first host whose retained-read files are not both present. -/
def roundsDone : List RoundEnv → Nat
  | [] => 0
  | e :: rest =>
    match e.unmapped1, e.unmapped2 with
    | some _, some _ => roundsDone rest + 1
    | _, _ => 1

/-! ### Reference selection and consensus build (`src/scripts/assembly.py`, `main`)

Each candidate alignment and each build step is an oracle: `CandEnv`
records whether the scoring `bowtie2` call exited zero and what its
stderr log file contains; `BuildEnv` records the exit status of every
external command of the consensus pipeline. -/

/-- Option-valued map over a list, kept structural: the first failing
element aborts, mirroring the first raising loop iteration. -/
def mapOpt (f : α → Option β) : List α → Option (List β)
  | [] => some []
  | a :: l =>
    match f a with
    | none => none
    | some b => (mapOpt f l).map (fun bs => b :: bs)

/-- Lines 61-63: the comparison against the best seen so far uses strict
greater-than, so an equal later rate does not replace the incumbent. -/
def selectStep (acc : Option String × ℚ) (c : String × ℚ) : Option String × ℚ :=
  if c.2 > acc.2 then (some c.1, c.2) else acc

/-- Lines 31-63 in essence: fold the scored candidates in supplied order
starting from `best_ref = None`, `best_rate = -1.0`. -/
def selectLoop (cs : List (String × ℚ)) : Option String × ℚ :=
  cs.foldl selectStep (none, -1)

/-- Marker of the rate line in the scoring log (line 54). -/
def rateMarker : String := "overall alignment rate"

/-- Lines 51-57: the rate defaults to `0.0`; the first line containing
the marker is split at `%`, stripped and parsed as a float (a parse
crash is `none`), and the scan `break`s there. -/
def parseRate (lines : List String) : Option ℚ :=
  match lines.find? (fun l => strContains l rateMarker) with
  | none => some 0
  | some l => pyFloat? (String.mk (trimL (l.data.takeWhile (fun c => c != '%'))))

/-- Oracle for scoring one candidate reference. -/
structure CandEnv where
  name : String
  alignOk : Bool
  logLines : List String
deriving DecidableEq

/-- Lines 36-57 for one candidate: strip `.1.bt2` from the supplied
name, run the aligner (`run_cmd` raises on nonzero exit, modeled by
`none`), then parse the log. -/
def scoreCandOpt (c : CandEnv) : Option (String × ℚ) :=
  if c.alignOk then
    (parseRate c.logLines).map (fun r => (strReplace c.name ".1.bt2" "", r))
  else none

/-- The whole scoring pass: `none` when some candidate alignment raised,
otherwise the `(best_ref, best_rate)` pair of the fold. -/
def selectRefs (cs : List CandEnv) : Option (Option String × ℚ) :=
  (mapOpt scoreCandOpt cs).map selectLoop

/-- Exit status of every external command of the consensus build
(lines 77-107), in pipeline order. -/
structure BuildEnv where
  realignOk : Bool
  viewOk : Bool
  sortOk : Bool
  indexOk : Bool
  mpileupCallOk : Bool
  vcfIndexOk : Bool
  consensusOk : Bool
  copyBamOk : Bool
  copyBaiOk : Bool
deriving DecidableEq

/-- Outcome of one `assembly.main` run: the artifact files present in
the published `assembly/` directory, whether the stage completed, and
the files surviving in the scratch directory. -/
structure AsmResult where
  published : List String
  ok : Bool
  scratch : List String
deriving DecidableEq

/-- Scoring scratch files of one candidate: its SAM output and its
stderr log (lines 39-40). -/
def candScratch (c : CandEnv) : List String :=
  let base := baseNameStr (strReplace c.name ".1.bt2" "")
  [base ++ ".sam", base ++ ".bowtie2.log"]

/-- The candidates the scoring loop reaches: every candidate up to and
including the first whose alignment raises. -/
def attempted : List CandEnv → List CandEnv
  | [] => []
  | c :: rest => if (scoreCandOpt c).isSome then c :: attempted rest else [c]

/-- Lines 29-113, the `try` body.  Selection failure (a raising
alignment, or `best_ref` still `None` because no rate beat `-1.0` —
`None + ".fasta"` raises) publishes nothing.  The build chain then
publishes artifacts exactly as far as it gets; crucially the shell
redirection of the consensus command creates `{sample}.fasta` before
`bcftools consensus` runs, so a consensus failure already leaves the
fasta behind. -/
def assemblyBody (sample : String) (cs : List CandEnv) (b : BuildEnv) : AsmResult :=
  let sel := (attempted cs).flatMap candScratch
  match mapOpt scoreCandOpt cs with
  | none => { published := [], ok := false, scratch := sel }
  | some scored =>
    match (selectLoop scored).1 with
    | none => { published := [], ok := false, scratch := sel }
    | some _ =>
      if !b.realignOk then
        { published := [], ok := false, scratch := sel ++ ["best_alignment.sam"] }
      else if !b.viewOk then
        { published := [], ok := false,
          scratch := sel ++ ["best_alignment.sam", "best_alignment.bam"] }
      else if !b.sortOk then
        { published := [], ok := false,
          scratch := sel ++ ["best_alignment.sam", "best_alignment.bam", "best_alignment.sorted.bam"] }
      else if !b.indexOk then
        { published := [], ok := false,
          scratch := sel ++ ["best_alignment.sam", "best_alignment.bam", "best_alignment.sorted.bam", "best_alignment.sorted.bam.bai"] }
      else if !b.mpileupCallOk then
        { published := [], ok := false,
          scratch := sel ++ ["best_alignment.sam", "best_alignment.bam", "best_alignment.sorted.bam", "best_alignment.sorted.bam.bai", "variants.vcf.gz"] }
      else if !b.vcfIndexOk then
        { published := [], ok := false,
          scratch := sel ++ ["best_alignment.sam", "best_alignment.bam", "best_alignment.sorted.bam", "best_alignment.sorted.bam.bai", "variants.vcf.gz", "variants.vcf.gz.csi"] }
      else
        let full := sel ++ ["best_alignment.sam", "best_alignment.bam", "best_alignment.sorted.bam", "best_alignment.sorted.bam.bai", "variants.vcf.gz", "variants.vcf.gz.csi"]
        if !b.consensusOk then
          { published := [sample ++ ".fasta"], ok := false, scratch := full }
        else if !b.copyBamOk then
          { published := [sample ++ ".fasta"], ok := false, scratch := full }
        else if !b.copyBaiOk then
          { published := [sample ++ ".fasta", sample ++ ".bam"], ok := false, scratch := full }
        else
          { published := [sample ++ ".fasta", sample ++ ".bam", sample ++ ".bam.bai"],
            ok := true, scratch := full }

/-- Lines 29 and 114-115: `tmp_dir = tempfile.mkdtemp(...)` guarded by
`try ... finally: shutil.rmtree(tmp_dir, ...)` — whatever the body did,
the scratch directory is gone when the stage exits. -/
def assemblyMain (sample : String) (cs : List CandEnv) (b : BuildEnv) : AsmResult :=
  { assemblyBody sample cs b with scratch := [] }

/-! ### Host index discovery (`host_removal.py`, lines 27-29) -/

/-- Line 28: `f.replace(".1.bt2", "").replace(".rev", "")`. -/
def stripIdxSuffix (f : String) : String :=
  strReplace (strReplace f ".1.bt2" "") ".rev" ""

/-- Lines 27-28: the discovered `*.1.bt2` files, sorted
lexicographically, mapped to index-path bases (with duplicates, since a
forward and a reverse index file collapse to the same base). -/
def hostIdxBases (files : List String) : List String :=
  (sortStr files).map stripIdxSuffix

/-- Line 29: `host_indexes = list(set(host_indexes))`.  CPython only
guarantees that the result lists each distinct element once; the order
of a string set's iteration depends on the per-process hash seed, so any
duplicate-free reordering satisfies the contract. -/
def pySetList (xs ys : List String) : Prop :=
  ys.Nodup ∧ (∀ a ∈ xs, a ∈ ys) ∧ (∀ a ∈ ys, a ∈ xs)

/-- Replace the recorded aligner exit code of a round. -/
def setExit (e : RoundEnv) (z : Int) : RoundEnv :=
  { e with exitCode := z }

/-- Depletion arguments whose output paths lack the `.gz` suffix. -/
def c9args : DepArgs :=
  { r1name := "S_R1.fastq.gz", r1content := "r1data", r2content := "r2data",
    out1 := "depleted_R1.fastq", out2 := "depleted_R2.fastq" }

/-! ### Theorems -/

/-- The exit code recorded for a round plays no role in the loop body:
replacing it by anything leaves every round transition unchanged. -/
theorem depleteRounds_exit_irrelevant (envs : List RoundEnv) (f : RoundEnv → Int) :
    ∀ st, depleteRounds st (envs.map (fun e => setExit e (f e))) = depleteRounds st envs := by
  induction envs with
  | nil => intro st; rfl
  | cons e rest ih =>
    intro st
    simp only [List.map_cons]
    show depleteRounds st (setExit e (f e) :: rest.map (fun x => setExit x (f x))) = _
    unfold depleteRounds
    cases hc : parseCounts e.stderrLines with
    | none => simp [setExit, hc]
    | some c =>
      cases hu1 : e.unmapped1 with
      | none => simp [setExit, hc, hu1, hostBase]
      | some u1 =>
        cases hu2 : e.unmapped2 with
        | none => simp [setExit, hc, hu1, hu2, hostBase]
        | some u2 =>
          simp only [setExit, hc, hu1, hu2, hostBase]
          exact ih _

/-- C2: the code sorts the discovered index files but then rebuilds the
list through a Python `set`, whose iteration order is hash-seed
dependent: for the same two discovered host index files, both visiting
orders satisfy the code's `list(set(...))` contract, so the host order
is neither fixed to the lexicographic one nor deterministic across
runs. -/
theorem C2_host_order_not_deterministic :
    pySetList (hostIdxBases ["host_indexes/a.1.bt2", "host_indexes/b.1.bt2"])
      ["host_indexes/a", "host_indexes/b"] ∧
    pySetList (hostIdxBases ["host_indexes/a.1.bt2", "host_indexes/b.1.bt2"])
      ["host_indexes/b", "host_indexes/a"] ∧
    (["host_indexes/b", "host_indexes/a"] : List String) ≠
      ["host_indexes/a", "host_indexes/b"] := by
  refine ⟨⟨by decide, by decide, by decide⟩, ⟨by decide, by decide, by decide⟩, by decide⟩

/-- C8: whether the consensus stage or the depletion stage ends in
success or in a raised error, its scratch/temporary directory is removed
before the stage exits: the `finally: shutil.rmtree(...)` of
`assembly.py` and the `with TemporaryDirectory(...)` of
`host_removal.py` leave no scratch files on any exit path. -/
theorem C8_scratch_cleanup (sample : String) (cs : List CandEnv) (b : BuildEnv)
    (a : DepArgs) (envs : List RoundEnv) :
    (assemblyMain sample cs b).scratch = [] ∧ (runDepletionFS a envs).2 = [] := by
  constructor
  · rfl
  · unfold runDepletionFS
    cases runDepletion a envs <;> rfl

/-- C9 counterexample: with an output path that does not end in `.gz`
the compressed pair is written to the path with `.gz` appended, not
exactly to the caller-specified `out_r1`. -/
theorem C9_counterexample :
    runDepletion c9args [] =
      some { summaryFile := [summaryHeader], totalRemoved := 0,
             outPath1 := "depleted_R1.fastq.gz", outData1 := FileData.gz "r1data",
             outPath2 := "depleted_R2.fastq.gz", outData2 := FileData.gz "r2data",
             finalCurr1 := "r1data", finalCurr2 := "r2data" } ∧
    c9args.out1 ≠ "depleted_R1.fastq.gz" := by
  exact ⟨by decide, by decide⟩

/-- C9 amended: every depletion run that reaches termination gzips the
final current read pair and writes it to `out_r1` / `out_r2` when those
end in `.gz`, and otherwise to those paths with `.gz` appended. -/
theorem C9_output_paths (a : DepArgs) (envs : List RoundEnv) (res : DepResult)
    (h : runDepletion a envs = some res) :
    res.outPath1 = (if strEndsWith a.out1 ".gz" then a.out1 else a.out1 ++ ".gz") ∧
    res.outPath2 = (if strEndsWith a.out2 ".gz" then a.out2 else a.out2 ++ ".gz") ∧
    res.outData1 = FileData.gz res.finalCurr1 ∧
    res.outData2 = FileData.gz res.finalCurr2 := by
  unfold runDepletion at h
  cases hd : depleteRounds (initState a) envs with
  | none => rw [hd] at h; exact absurd h (by simp)
  | some st =>
    rw [hd] at h
    obtain rfl := (Option.some.injEq _ _).mp h
    exact ⟨rfl, rfl, rfl, rfl⟩

/-- C10: the summary file starts with the literal header line, written
when the file is created (truncating) before any round runs; a run over
zero hosts leaves exactly the header. -/
theorem C10_summary_header (a : DepArgs) (envs : List RoundEnv) (res : DepResult)
    (h : runDepletion a envs = some res) :
    res.summaryFile = summaryHeader :: res.summaryFile.tail ∧
    summaryHeader = "Removal Summary (paired-end)" ∧
    (envs = [] → res.summaryFile = [summaryHeader]) := by
  unfold runDepletion at h
  cases hd : depleteRounds (initState a) envs with
  | none => rw [hd] at h; exact absurd h (by simp)
  | some st =>
    rw [hd] at h
    obtain rfl := (Option.some.injEq _ _).mp h
    refine ⟨rfl, rfl, ?_⟩
    intro he
    subst he
    have : st = initState a := by
      have := hd
      unfold depleteRounds at this
      exact ((Option.some.injEq _ _).mp this).symm
    subst this
    rfl

/-- Depletion arguments with nonempty input reads, used to exhibit the
behavior of a failing aligner round. -/
def c3args : DepArgs :=
  { r1name := "S_R1.fastq.gz", r1content := "@read1 ACGT", r2content := "@read2 GGGG",
    out1 := "dep_R1.fastq.gz", out2 := "dep_R2.fastq.gz" }

/-- A round whose aligner exited nonzero and produced no output files:
the captured stderr is the bowtie2 error banner. -/
def c3env : RoundEnv :=
  { host := "host_indexes/hB", exitCode := 1,
    stderrLines := ["(ERR): bowtie2-align exited with value 1"],
    unmapped1 := none, unmapped2 := none }

/-- C3 counterexample: the aligner of the single host round exits with
code 1, yet the depletion run completes normally — the summary line for
that host is recorded with count 0, and the compressed output pair is
written; nothing fails. -/
theorem C3_counterexample :
    c3env.exitCode ≠ 0 ∧
    runDepletion c3args [c3env] =
      some { summaryFile := [summaryHeader, "hB\t0"], totalRemoved := 0,
             outPath1 := "dep_R1.fastq.gz", outData1 := FileData.gz "@read1 ACGT",
             outPath2 := "dep_R2.fastq.gz", outData2 := FileData.gz "@read2 GGGG",
             finalCurr1 := "@read1 ACGT", finalCurr2 := "@read2 GGGG" } := by
  exact ⟨by decide, by decide⟩

/-- C3 amended: the loop never inspects the aligner's exit code — the
whole depletion run, its summary and its compressed outputs are
identical whatever exit codes the aligner invocations return; a nonzero
exit is only ever felt indirectly, through the retained-read files being
absent, which ends the loop normally. -/
theorem C3_exit_code_ignored (a : DepArgs) (envs : List RoundEnv) (f : RoundEnv → Int) :
    runDepletion a (envs.map (fun e => setExit e (f e))) = runDepletion a envs := by
  unfold runDepletion
  rw [depleteRounds_exit_irrelevant]

/-- Arguments for the missing-retained-files round: the current reads
entering the round are nonempty. -/
def c4args : DepArgs :=
  { r1name := "S_R1.fastq.gz", r1content := "@r1 ACGTACGT", r2content := "@r2 TTTT",
    out1 := "dep_R1.fastq.gz", out2 := "dep_R2.fastq.gz" }

/-- A round that produced neither retained-read file. -/
def c4env : RoundEnv :=
  { host := "host_indexes/hA", exitCode := 0, stderrLines := [],
    unmapped1 := none, unmapped2 := none }

/-- A further host that the early-terminated loop must skip. -/
def c4extra : RoundEnv :=
  { host := "host_indexes/hZ", exitCode := 0, stderrLines := [],
    unmapped1 := some "zzz", unmapped2 := some "zzz" }

/-- C4 counterexample: when the retained-read files of round 1 are
missing, the loop terminates early — but `open(curr, "a")` does not
empty the existing current files, so the final compressed output is the
nonempty read pair that entered the round, not empty read files. -/
theorem C4_counterexample :
    runDepletion c4args [c4env, c4extra] =
      some { summaryFile := [summaryHeader, "hA\t0"], totalRemoved := 0,
             outPath1 := "dep_R1.fastq.gz", outData1 := FileData.gz "@r1 ACGTACGT",
             outPath2 := "dep_R2.fastq.gz", outData2 := FileData.gz "@r2 TTTT",
             finalCurr1 := "@r1 ACGTACGT", finalCurr2 := "@r2 TTTT" } ∧
    c4args.r1content ≠ "" ∧ c4args.r1content = "@r1 ACGTACGT" := by
  exact ⟨by decide, by decide, by decide⟩

/-- C4 amended: if either retained-read output of a round is missing,
the loop reopens the current files in append mode — which preserves
their existing content, it does not empty them — records the round's
summary line, and terminates early, skipping every remaining host; this
is normal termination (`some`), not an error, and the final current pair
is exactly the pair that entered the terminating round. -/
theorem C4_early_stop_keeps_reads (st : DepState) (e : RoundEnv) (rest : List RoundEnv)
    (hm : e.unmapped1 = none ∨ e.unmapped2 = none)
    (hp : (parseCounts e.stderrLines).isSome = true) :
    depleteRounds st (e :: rest) = depleteRounds st [e] ∧
    ∃ res, depleteRounds st (e :: rest) = some res ∧
      res.curr1 = st.curr1 ∧ res.curr2 = st.curr2 ∧
      res.entries = st.entries ++ [entryOf e] ∧
      res.totalRemoved = st.totalRemoved + removedOf e := by
  obtain ⟨c, hc⟩ := Option.isSome_iff_exists.mp hp
  have hentry : entryOf e = hostBase e ++ "\t" ++ toString (c.exact + c.multi) := by
    simp [entryOf, removedOf, hc]
  have hrem : removedOf e = c.exact + c.multi := by simp [removedOf, hc]
  have hstop : ∀ tail : List RoundEnv, depleteRounds st (e :: tail) =
      some { st with
             totalRemoved := st.totalRemoved + (c.exact + c.multi),
             entries := st.entries ++ [hostBase e ++ "\t" ++ toString (c.exact + c.multi)],
             workFiles := st.workFiles ++ [hostBase e ++ "_stats.txt"] } := by
    intro tail
    unfold depleteRounds
    rcases hm with h1 | h2
    · simp [hc, h1]
    · cases hu1 : e.unmapped1 <;> simp [hc, hu1, h2]
  refine ⟨(hstop rest).trans (hstop []).symm, _, hstop rest, rfl, rfl, ?_, ?_⟩
  · simp [hentry]
  · simp [hrem]

/-- Entering state for the early-stop witness round. -/
def w4st : DepState :=
  { curr1 := "leftover R1", curr2 := "leftover R2", totalRemoved := 3,
    entries := ["hPrev\t3"], workFiles := [] }

/-- Witness round: parseable stderr, first retained-read file missing. -/
def w4env : RoundEnv :=
  { host := "host_indexes/hC", exitCode := 0,
    stderrLines := ["7 aligned exactly 1 time"],
    unmapped1 := none, unmapped2 := some "ignored" }

/-- A host that must be skipped by the early stop. -/
def w4extra : RoundEnv :=
  { host := "host_indexes/hD", exitCode := 0, stderrLines := [],
    unmapped1 := some "x", unmapped2 := some "y" }

/-- C4 amended, witnessed at a concrete early-stopping round. -/
theorem C4_early_stop_keeps_reads_witness :
    depleteRounds w4st [w4env, w4extra] = depleteRounds w4st [w4env] ∧
    ∃ res, depleteRounds w4st [w4env, w4extra] = some res ∧
      res.curr1 = w4st.curr1 ∧ res.curr2 = w4st.curr2 ∧
      res.entries = w4st.entries ++ [entryOf w4env] ∧
      res.totalRemoved = w4st.totalRemoved + removedOf w4env :=
  C4_early_stop_keeps_reads w4st w4env [w4extra] (Or.inl rfl) (by decide)

/-- C5: for every run of the loop that completes, the appended summary
lines are exactly one `{host}\t{removed}` line per executed round in
processing order, where each round's removed count is the parsed
`exactly_once + multi`, and the final running total is the initial total
plus the sum of the per-round removals. -/
theorem C5_summary_bookkeeping (envs : List RoundEnv) :
    ∀ st res, depleteRounds st envs = some res →
      res.entries = st.entries ++ (envs.take (roundsDone envs)).map entryOf ∧
      res.totalRemoved =
        st.totalRemoved + ((envs.take (roundsDone envs)).map removedOf).sum := by
  induction envs with
  | nil =>
    intro st res h
    unfold depleteRounds at h
    obtain rfl := (Option.some.injEq _ _).mp h
    simp [roundsDone]
  | cons e rest ih =>
    intro st res h
    unfold depleteRounds at h
    cases hc : parseCounts e.stderrLines with
    | none => rw [hc] at h; exact absurd h (by simp)
    | some c =>
      rw [hc] at h
      have hentry : entryOf e = hostBase e ++ "\t" ++ toString (c.exact + c.multi) := by
        simp [entryOf, removedOf, hc]
      have hrem : removedOf e = c.exact + c.multi := by simp [removedOf, hc]
      cases hu1 : e.unmapped1 with
      | none =>
        rw [hu1] at h
        simp only [] at h
        obtain rfl := (Option.some.injEq _ _).mp h
        simp [roundsDone, hu1, hentry, hrem]
      | some u1 =>
        cases hu2 : e.unmapped2 with
        | none =>
          rw [hu1, hu2] at h
          simp only [] at h
          obtain rfl := (Option.some.injEq _ _).mp h
          simp [roundsDone, hu1, hu2, hentry, hrem]
        | some u2 =>
          rw [hu1, hu2] at h
          simp only [] at h
          obtain ⟨h1, h2⟩ := ih _ _ h
          constructor
          · rw [h1]
            simp [roundsDone, hu1, hu2, List.take_succ_cons, hentry]
          · rw [h2]
            simp [roundsDone, hu1, hu2, List.take_succ_cons, hrem]
            ring

/-- Initial state for the two-round bookkeeping witness. -/
def w5st : DepState :=
  { curr1 := "orig1", curr2 := "orig2", totalRemoved := 0, entries := [], workFiles := [] }

/-- Round 1 of the witness: removes 30 of 1000 pairs. -/
def w5e1 : RoundEnv :=
  { host := "host_indexes/h1", exitCode := 0,
    stderrLines := ["1000 paired; of these:", "30 aligned exactly 1 time",
                    "0 aligned >1 times", "970 aligned concordantly 0 times"],
    unmapped1 := some "u1a", unmapped2 := some "u1b" }

/-- Round 2 of the witness: removes 20 pairs (14 exact + 6 multi). -/
def w5e2 : RoundEnv :=
  { host := "host_indexes/h2", exitCode := 0,
    stderrLines := ["970 paired; of these:", "14 aligned exactly 1 time",
                    "6 aligned >1 times", "950 aligned concordantly 0 times"],
    unmapped1 := some "u2a", unmapped2 := some "u2b" }

/-- Final state of the witness run. -/
def w5res : DepState :=
  { curr1 := "u2a", curr2 := "u2b", totalRemoved := 50,
    entries := ["h1\t30", "h2\t20"],
    workFiles := ["h1_stats.txt", "h2_stats.txt"] }

/-- C5, witnessed on a concrete two-round run (30 then 20 removed,
total 50, lines in processing order). -/
theorem C5_summary_bookkeeping_witness :
    w5res.entries = w5st.entries ++ (([w5e1, w5e2]).take (roundsDone [w5e1, w5e2])).map entryOf ∧
    w5res.totalRemoved =
      w5st.totalRemoved + ((([w5e1, w5e2]).take (roundsDone [w5e1, w5e2])).map removedOf).sum :=
  C5_summary_bookkeeping [w5e1, w5e2] w5st w5res (by decide)

/-- If no candidate beats the incumbent rate, the fold keeps the
incumbent pair unchanged. -/
theorem selectFold_const (cs : List (String × ℚ)) (b : Option String) (r : ℚ)
    (h : ∀ c ∈ cs, c.2 ≤ r) : cs.foldl selectStep (b, r) = (b, r) := by
  induction cs generalizing b r with
  | nil => rfl
  | cons c rest ih =>
    have hc : c.2 ≤ r := h c (List.mem_cons_self c rest)
    have hstep : selectStep (b, r) c = (b, r) := by
      simp [selectStep, not_lt.mpr hc]
    rw [List.foldl_cons, hstep]
    exact ih b r (fun x hx => h x (List.mem_cons_of_mem c hx))

/-- Core selection law: as soon as some candidate beats the incumbent
rate, the fold returns the first candidate achieving the overall maximum
rate, every earlier candidate being strictly below it. -/
theorem selectFold_first_max (cs : List (String × ℚ)) (b : Option String) (r : ℚ)
    (h : ∃ c ∈ cs, r < c.2) :
    ∃ name pre post,
      (cs.foldl selectStep (b, r)).1 = some name ∧
      cs = pre ++ (name, (cs.foldl selectStep (b, r)).2) :: post ∧
      (∀ c ∈ pre, c.2 < (cs.foldl selectStep (b, r)).2) ∧
      (∀ c ∈ cs, c.2 ≤ (cs.foldl selectStep (b, r)).2) ∧
      r < (cs.foldl selectStep (b, r)).2 := by
  induction cs generalizing b r with
  | nil => simp at h
  | cons c rest ih =>
    by_cases hc : r < c.2
    · have hstep : selectStep (b, r) c = (some c.1, c.2) := by
        simp [selectStep, hc]
      by_cases hrest : ∃ x ∈ rest, c.2 < x.2
      · obtain ⟨name, pre, post, h1, h2, h3, h4, h5⟩ := ih (some c.1) c.2 hrest
        rw [List.foldl_cons, hstep]
        refine ⟨name, c :: pre, post, h1, ?_, ?_, ?_, lt_trans hc h5⟩
        · rw [List.cons_append, ← h2]
        · intro x hx
          rcases List.mem_cons.mp hx with rfl | hx'
          · exact h5
          · exact h3 x hx'
        · intro x hx
          rcases List.mem_cons.mp hx with rfl | hx'
          · exact le_of_lt h5
          · exact h4 x hx'
      · push_neg at hrest
        have hfold : rest.foldl selectStep (some c.1, c.2) = (some c.1, c.2) :=
          selectFold_const rest (some c.1) c.2 hrest
        rw [List.foldl_cons, hstep, hfold]
        refine ⟨c.1, [], rest, rfl, ?_, ?_, ?_, hc⟩
        · simp
        · intro x hx
          exact absurd hx (List.not_mem_nil x)
        · intro x hx
          rcases List.mem_cons.mp hx with rfl | hx'
          · exact le_refl _
          · exact hrest x hx'
    · push_neg at hc
      have hstep : selectStep (b, r) c = (b, r) := by
        simp [selectStep, not_lt.mpr hc]
      have hrest : ∃ x ∈ rest, r < x.2 := by
        obtain ⟨x, hx, hlt⟩ := h
        rcases List.mem_cons.mp hx with rfl | hx'
        · exact absurd hlt (not_lt.mpr hc)
        · exact ⟨x, hx', hlt⟩
      obtain ⟨name, pre, post, h1, h2, h3, h4, h5⟩ := ih b r hrest
      rw [List.foldl_cons, hstep]
      refine ⟨name, c :: pre, post, h1, ?_, ?_, ?_, h5⟩
      · rw [List.cons_append, ← h2]
      · intro x hx
        rcases List.mem_cons.mp hx with rfl | hx'
        · exact lt_of_le_of_lt hc h5
        · exact h3 x hx'
      · intro x hx
        rcases List.mem_cons.mp hx with rfl | hx'
        · exact le_of_lt (lt_of_le_of_lt hc h5)
        · exact h4 x hx'

/-- C1: on a nonempty candidate list whose rates are alignment
percentages (hence nonnegative, so every rate beats the initial
`best_rate = -1.0`), the selection fold returns a defined best
reference: the first candidate in supplied order whose rate equals the
maximum — every candidate before it rates strictly lower, and no
candidate rates higher, so a later equal rate never displaces it. -/
theorem C1_first_best (cs : List (String × ℚ)) (hne : cs ≠ [])
    (hnn : ∀ c ∈ cs, 0 ≤ c.2) :
    ∃ name pre post,
      (selectLoop cs).1 = some name ∧
      cs = pre ++ (name, (selectLoop cs).2) :: post ∧
      (∀ c ∈ pre, c.2 < (selectLoop cs).2) ∧
      (∀ c ∈ cs, c.2 ≤ (selectLoop cs).2) := by
  have hex : ∃ c ∈ cs, (-1 : ℚ) < c.2 := by
    cases cs with
    | nil => exact absurd rfl hne
    | cons c rest =>
      refine ⟨c, List.mem_cons_self c rest, ?_⟩
      have := hnn c (List.mem_cons_self c rest)
      linarith
  obtain ⟨name, pre, post, h1, h2, h3, h4, _⟩ :=
    selectFold_first_max cs none (-1) hex
  exact ⟨name, pre, post, h1, h2, h3, h4⟩

/-- C1, witnessed on spec scenario B extended with a duplicate-rate
pair: rates 40, 40, 55 select the third candidate, and rates 40, 40
alone would keep the first. -/
theorem C1_first_best_witness :
    ∃ name pre post,
      (selectLoop [("A", (40 : ℚ)), ("B", 40), ("C", 55)]).1 = some name ∧
      [("A", (40 : ℚ)), ("B", 40), ("C", 55)] =
        pre ++ (name, (selectLoop [("A", (40 : ℚ)), ("B", 40), ("C", 55)]).2) :: post ∧
      (∀ c ∈ pre, c.2 < (selectLoop [("A", (40 : ℚ)), ("B", 40), ("C", 55)]).2) ∧
      (∀ c ∈ [("A", (40 : ℚ)), ("B", 40), ("C", 55)],
        c.2 ≤ (selectLoop [("A", (40 : ℚ)), ("B", 40), ("C", 55)]).2) :=
  C1_first_best [("A", (40 : ℚ)), ("B", 40), ("C", 55)] (by decide) (by decide)

/-- A candidate whose scoring alignment succeeds; its log carries no
rate marker, so it scores the default 0.0. -/
def c6cand : CandEnv :=
  { name := "refs/K12.1.bt2", alignOk := true, logLines := [] }

/-- Build environment in which only the consensus command fails. -/
def c6env : BuildEnv :=
  { realignOk := true, viewOk := true, sortOk := true, indexOk := true,
    mpileupCallOk := true, vcfIndexOk := true, consensusOk := false,
    copyBamOk := true, copyBaiOk := true }

/-- C6 counterexample: when `bcftools consensus` fails, the stage fails
but `{sample}.fasta` has already been created by the shell redirection
and stays published — a failing run with a nonempty partial artifact
set. -/
theorem C6_counterexample :
    assemblyMain "S" [c6cand] c6env =
      { published := ["S.fasta"], ok := false, scratch := [] } ∧
    c6env.consensusOk = false ∧ (["S.fasta"] : List String) ≠ [] := by
  exact ⟨by decide, by decide, by decide⟩

/-- C6 amended: a successful run publishes exactly the three artifacts;
a failure before the consensus step publishes nothing; but a failure at
the consensus step or at either copy can leave a proper partial set —
the published set is always one of `[]`, `[fasta]`, `[fasta, bam]`,
`[fasta, bam, bam.bai]`, and equals the full triple exactly on
success. -/
theorem C6_publish_shapes (sample : String) (cs : List CandEnv) (b : BuildEnv) :
    ((assemblyMain sample cs b).ok = true ↔
      (assemblyMain sample cs b).published =
        [sample ++ ".fasta", sample ++ ".bam", sample ++ ".bam.bai"]) ∧
    ((assemblyMain sample cs b).published = [] ∨
      (assemblyMain sample cs b).published = [sample ++ ".fasta"] ∨
      (assemblyMain sample cs b).published = [sample ++ ".fasta", sample ++ ".bam"] ∨
      (assemblyMain sample cs b).published =
        [sample ++ ".fasta", sample ++ ".bam", sample ++ ".bam.bai"]) := by
  unfold assemblyMain assemblyBody
  cases hm : mapOpt scoreCandOpt cs with
  | none => simp
  | some scored =>
    cases hb : (selectLoop scored).1 with
    | none => simp [hb]
    | some r =>
      simp only [hb]
      split_ifs <;> simp

/-- Mapping preserves definedness of an optional value. -/
theorem isSome_opt_map (g : α → β) (o : Option α) :
    (Option.map g o).isSome = o.isSome := by
  cases o <;> rfl

/-- All-some lists map through `mapOpt` to a defined result. -/
theorem mapOpt_isSome_of_forall (f : α → Option β) (l : List α)
    (h : ∀ a ∈ l, (f a).isSome = true) : (mapOpt f l).isSome = true := by
  induction l with
  | nil => rfl
  | cons a rest ih =>
    unfold mapOpt
    cases hf : f a with
    | none =>
      have := h a (List.mem_cons_self a rest)
      rw [hf] at this
      exact absurd this (by simp)
    | some b =>
      show (Option.map (fun bs => b :: bs) (mapOpt f rest)).isSome = true
      rw [isSome_opt_map]
      exact ih (fun x hx => h x (List.mem_cons_of_mem a hx))

/-- C7: when no line of a candidate's aligner log contains the
`overall alignment rate` marker, its parsed rate is exactly the default
`0.0`, and — provided the other candidates score normally — the
selection pass over a list containing this candidate still returns a
defined result: the missing marker never aborts selection. -/
theorem C7_missing_marker_defaults (log : List String) (name : String)
    (pre post : List CandEnv)
    (h : ∀ l ∈ log, strContains l rateMarker = false) :
    parseRate log = some 0 ∧
    ((∀ c ∈ pre ++ post, (scoreCandOpt c).isSome = true) →
      (selectRefs (pre ++ { name := name, alignOk := true, logLines := log } :: post)).isSome
        = true) := by
  have hfind : log.find? (fun l => strContains l rateMarker) = none := by
    rw [List.find?_eq_none]
    intro x hx
    simp [h x hx]
  have hrate : parseRate log = some 0 := by
    unfold parseRate
    rw [hfind]
  refine ⟨hrate, ?_⟩
  intro hall
  unfold selectRefs
  rw [isSome_opt_map]
  apply mapOpt_isSome_of_forall
  intro c hc
  rcases List.mem_append.mp hc with hpre | hmid
  · exact hall c (List.mem_append.mpr (Or.inl hpre))
  · rcases List.mem_cons.mp hmid with rfl | hpost
    · simp [scoreCandOpt, hrate]
    · exact hall c (List.mem_append.mpr (Or.inr hpost))

/-- C7, witnessed on a one-line log without the marker, alone in the
candidate list. -/
theorem C7_missing_marker_defaults_witness :
    parseRate ["0 paired; of these:"] = some 0 ∧
    ((∀ c ∈ ([] ++ [] : List CandEnv), (scoreCandOpt c).isSome = true) →
      (selectRefs ([] ++ ({ name := "refX", alignOk := true, logLines := ["0 paired; of these:"] } : CandEnv) :: [])).isSome = true) :=
  C7_missing_marker_defaults ["0 paired; of these:"] "refX" [] [] (by decide)

/-- Result of the zero-host witness run. -/
def w10res : DepResult :=
  { summaryFile := ["Removal Summary (paired-end)"], totalRemoved := 0,
    outPath1 := "d1.fastq.gz", outData1 := FileData.gz "r1",
    outPath2 := "d2.fastq.gz", outData2 := FileData.gz "r2",
    finalCurr1 := "r1", finalCurr2 := "r2" }

/-- Arguments of the zero-host witness run. -/
def w10args : DepArgs :=
  { r1name := "S_R1.fastq.gz", r1content := "r1", r2content := "r2",
    out1 := "d1.fastq.gz", out2 := "d2.fastq.gz" }

/-- C10, witnessed on a run over zero hosts. -/
theorem C10_summary_header_witness :
    w10res.summaryFile = summaryHeader :: w10res.summaryFile.tail ∧
    summaryHeader = "Removal Summary (paired-end)" ∧
    (([] : List RoundEnv) = [] → w10res.summaryFile = [summaryHeader]) :=
  C10_summary_header w10args [] w10res (by decide)

/-- Arguments of the output-path witness run (paths already `.gz`). -/
def w9args : DepArgs :=
  { r1name := "T_R1.fastq.gz", r1content := "p1", r2content := "p2",
    out1 := "final_R1.fastq.gz", out2 := "final_R2.fastq" }

/-- Result of the output-path witness run. -/
def w9res : DepResult :=
  { summaryFile := ["Removal Summary (paired-end)"], totalRemoved := 0,
    outPath1 := "final_R1.fastq.gz", outData1 := FileData.gz "p1",
    outPath2 := "final_R2.fastq.gz", outData2 := FileData.gz "p2",
    finalCurr1 := "p1", finalCurr2 := "p2" }

/-- C9 amended, witnessed on a run whose first output path ends in
`.gz` (kept) and whose second does not (suffixed). -/
theorem C9_output_paths_witness :
    w9res.outPath1 = (if strEndsWith w9args.out1 ".gz" then w9args.out1 else w9args.out1 ++ ".gz") ∧
    w9res.outPath2 = (if strEndsWith w9args.out2 ".gz" then w9args.out2 else w9args.out2 ++ ".gz") ∧
    w9res.outData1 = FileData.gz w9res.finalCurr1 ∧
    w9res.outData2 = FileData.gz w9res.finalCurr2 :=
  C9_output_paths w9args [] w9res (by decide)

end VeGAS
